import Mathlib

/-!
# Verification of the ncollide fragment: cone mass properties and the BVT ray query

This file embeds the repository's source in Lean 4 and proves the spec's claims
about it.  The `Volumetric` implementations for cones
(`src/src/volumetric/volumetric_cone.rs`) are translated directly; the bounding
volume tree, bounding spheres and the ray-interference collector are only
*used* by the repository (`src/examples/ray_bvt3d.rs`), their code living in a
part of the library that is not in the source tree, so those are modelled from
the spec.  Scalars are modelled by real numbers.
-/

namespace Ncollide

/-- A cone, described by its half height and base radius
(mirrors `geom::Cone` with accessors `half_height()` and `radius()`). -/
structure Cone where
  half_height : ℝ
  radius : ℝ

/-- `cone_volume`, `#[dim2]` variant:
`*radius * *half_height * na::cast(2.0f64)`. -/
noncomputable def cone_volume_dim2 (half_height : ℝ) (radius : ℝ) : ℝ :=
  radius * half_height * 2

/-- `cone_volume`, `#[dim3]` variant:
`*radius * *radius * Float::pi() * *half_height * na::cast(2.0f64 / 3.0)`. -/
noncomputable def cone_volume_dim3 (half_height : ℝ) (radius : ℝ) : ℝ :=
  radius * radius * Real.pi * half_height * (2 / 3)

/-- `cone_volume`, `#[dim4]` variant: the body is
`fail!("Not yet impelmented in 4d.")`; failure is modelled by `none`,
a normal return by `some`. -/
def cone_volume_dim4 (_half_height : ℝ) (_radius : ℝ) : Option ℝ :=
  none

/-- `res.set((i, j), v)`: writes one entry of a matrix, used to mirror the
`Indexable::set` calls of the source. -/
def setEntry {k : ℕ} (m : Matrix (Fin k) (Fin k) ℝ) (ij : Fin k × Fin k) (v : ℝ) :
    Matrix (Fin k) (Fin k) ℝ :=
  Matrix.of fun i j => if (i, j) = ij then v else m i j

/-- `#[dim2] impl Volumetric for Cone`: `mass_properties` returns
`(mass, center, res)` where `mass = cone_volume(half_height, radius) * density`,
`res` is the zero 1×1 angular-inertia matrix with entry `(0,0)` set to
`radius * half_height³ / 3`, and `center` is the zero vector with entry `1`
set to `-half_height / 2`. -/
noncomputable def mass_properties_dim2 (c : Cone) (density : ℝ) :
    ℝ × (Fin 2 → ℝ) × Matrix (Fin 1) (Fin 1) ℝ :=
  let mass := cone_volume_dim2 c.half_height c.radius * density
  let res : Matrix (Fin 1) (Fin 1) ℝ :=
    setEntry 0 (0, 0) (c.radius * c.half_height * c.half_height * c.half_height / 3)
  let center : Fin 2 → ℝ := Function.update (0 : Fin 2 → ℝ) 1 (-c.half_height / 2)
  (mass, center, res)

/-- `#[dim3] impl Volumetric for Cone`: `mass_properties` computes
`mass = cone_volume * density`, `m_sq_radius = mass * radius²`,
`m_sq_height = mass * half_height² * 4`,
`off_principal = m_sq_radius * 3/20 + m_sq_height * 3/5`,
`principal = m_sq_radius * 3/10`, writes the diagonal entries
`(0,0) ↦ off_principal`, `(1,1) ↦ principal`, `(2,2) ↦ off_principal` of a zero
matrix, and sets entry `1` of a zero center vector to `-half_height / 2`. -/
noncomputable def mass_properties_dim3 (c : Cone) (density : ℝ) :
    ℝ × (Fin 3 → ℝ) × Matrix (Fin 3) (Fin 3) ℝ :=
  let mass := cone_volume_dim3 c.half_height c.radius * density
  let m_sq_radius := mass * c.radius * c.radius
  let m_sq_height := mass * c.half_height * c.half_height * 4
  let off_principal := m_sq_radius * (3 / 20) + m_sq_height * (3 / 5)
  let principal := m_sq_radius * (3 / 10)
  let res : Matrix (Fin 3) (Fin 3) ℝ :=
    setEntry (setEntry (setEntry 0 (0, 0) off_principal) (1, 1) principal) (2, 2) off_principal
  let center : Fin 3 → ℝ := Function.update (0 : Fin 3 → ℝ) 1 (-c.half_height / 2)
  (mass, center, res)

/-- `#[dim4] impl Volumetric for Cone`: the body is
`fail!("mass_properties is not yet implemented for cones.")`; failure is
modelled by `none`. -/
def mass_properties_dim4 (_c : Cone) (_density : ℝ) :
    Option (ℝ × (Fin 4 → ℝ) × Matrix (Fin 4) (Fin 4) ℝ) :=
  none

/-- Points and vectors of n-dimensional Euclidean space. -/
abbrev Pt (n : ℕ) := EuclideanSpace ℝ (Fin n)

/-- A ray: origin point plus direction vector, not required to be normalized
(mirrors `query::Ray`). -/
structure Ray (n : ℕ) where
  origin : Pt n
  dir : Pt n

/-- A bounding sphere: center point and radius
(mirrors `bounding_volume::BoundingSphere`). -/
structure BoundingSphere (n : ℕ) where
  center : Pt n
  radius : ℝ

/-- Modelled from the spec: `BoundingSphere::intersects_ray` (the library code
is not in the source tree) — true iff the ray's infinite forward half-line
passes within the sphere's radius of its center, i.e. some point with
non-negative line parameter is at distance at most `radius` from the center. -/
def BoundingSphere.intersects_ray {n : ℕ} (s : BoundingSphere n) (r : Ray n) : Prop :=
  ∃ t : ℝ, 0 ≤ t ∧ dist (r.origin + t • r.dir) s.center ≤ s.radius

/-- Modelled from the spec: `BoundingVolume::merge` for bounding spheres (the
library code is not in the source tree) — the smallest sphere enclosing both
inputs: if one sphere already contains the other it is returned unchanged,
otherwise the result spans the two far ends of the spheres along the line of
centers. -/
noncomputable def BoundingSphere.merge {n : ℕ} (a b : BoundingSphere n) : BoundingSphere n :=
  let d := dist a.center b.center
  if d + b.radius ≤ a.radius then a
  else if d + a.radius ≤ b.radius then b
  else
    { center := a.center + (((d + a.radius + b.radius) / 2 - a.radius) / d) • (b.center - a.center)
      radius := (d + a.radius + b.radius) / 2 }

/-- A ball described by its radius (mirrors `shape::Ball`). -/
structure Ball where
  radius : ℝ

/-- A capsule described by its half height and radius (mirrors `shape::Capsule`). -/
structure Capsule where
  half_height : ℝ
  radius : ℝ

/-- A box described by its half extents (mirrors `shape::Cuboid`). -/
structure Cuboid where
  half_extents : Fin 3 → ℝ

/-- Modelled from the spec: the shape-capability bounding sphere of a ball
placed by a translation (the rotations in the example are all zero) — the
sphere centered at the placement with the ball's radius. -/
noncomputable def Ball.bounding_sphere (b : Ball) (pos : Pt 3) : BoundingSphere 3 :=
  ⟨pos, b.radius⟩

/-- Modelled from the spec: the bounding sphere of a capsule placed by a
translation — centered at the placement, reaching the far cap of the capsule
at distance `half_height + radius`. -/
noncomputable def Capsule.bounding_sphere (c : Capsule) (pos : Pt 3) : BoundingSphere 3 :=
  ⟨pos, c.half_height + c.radius⟩

/-- Modelled from the spec: the bounding sphere of a cone placed by a
translation — centered at the placement, reaching the base circle of the cone
at distance `sqrt (half_height² + radius²)`. -/
noncomputable def Cone.bounding_sphere (c : Cone) (pos : Pt 3) : BoundingSphere 3 :=
  ⟨pos, Real.sqrt (c.half_height ^ 2 + c.radius ^ 2)⟩

/-- Modelled from the spec: the bounding sphere of a box placed by a
translation — centered at the placement, reaching the corners at distance
`‖half_extents‖`. -/
noncomputable def Cuboid.bounding_sphere (c : Cuboid) (pos : Pt 3) : BoundingSphere 3 :=
  ⟨pos, Real.sqrt (c.half_extents 0 ^ 2 + c.half_extents 1 ^ 2 + c.half_extents 2 ^ 2)⟩

open Classical in
/-- Modelled from the spec: the decision function of
`RayInterferencesCollector` — a node is entered, and a leaf reported, exactly
when its bounding volume intersects the query ray. -/
noncomputable def RayInterferencesCollector {n : ℕ} (r : Ray n) :
    BoundingSphere n → Bool :=
  fun s => decide (s.intersects_ray r)

/-- Modelled from the spec: a BVT node is a leaf holding an
(identifier, bounding volume) pair, or an internal node holding its own
bounding volume and exactly two children. -/
inductive BVTNode (ID BV : Type) where
  | leaf (ident : ID) (bv : BV)
  | node (bv : BV) (left : BVTNode ID BV) (right : BVTNode ID BV)

/-- The bounding volume stored at the root of a node. -/
def BVTNode.bv {ID BV : Type} : BVTNode ID BV → BV
  | .leaf _ b => b
  | .node b _ _ => b

/-- The (identifier, bounding volume) pairs at the leaves of a node, left to
right. -/
def BVTNode.leaves {ID BV : Type} : BVTNode ID BV → List (ID × BV)
  | .leaf i b => [(i, b)]
  | .node _ l r => l.leaves ++ r.leaves

/-- Modelled from the spec: visitor-driven traversal with the interference
collector — an internal node whose bounding volume fails the visitor's test is
pruned (neither child visited); when it passes, both children are visited left
to right; a leaf whose bounding volume passes the test appends its identifier
to the output. -/
def BVTNode.visit {ID BV : Type} (test : BV → Bool) : BVTNode ID BV → List ID
  | .leaf i b => if test b then [i] else []
  | .node b l r => if test b then l.visit test ++ r.visit test else []

/-- A bounding volume tree: empty, or a root node
(mirrors `partitioning::BVT`). -/
abbrev BVT (ID BV : Type) := Option (BVTNode ID BV)

/-- Traversal of a possibly empty tree: an empty tree makes no visitor calls. -/
def BVT.visit {ID BV : Type} (test : BV → Bool) : BVT ID BV → List ID
  | none => []
  | some nd => nd.visit test

/-- The leaves of a possibly empty tree. -/
def BVT.leavesList {ID BV : Type} : BVT ID BV → List (ID × BV)
  | none => []
  | some nd => nd.leaves

/-- Every internal node of the tree carries exactly the merge of its
children's bounding volumes — the invariant established by balanced
construction. -/
def BVTNode.WellMerged {ID : Type} {n : ℕ} : BVTNode ID (BoundingSphere n) → Prop
  | .leaf _ _ => True
  | .node b l r => b = l.bv.merge r.bv ∧ l.WellMerged ∧ r.WellMerged

/-- Modelled from the spec: the spread of a list of centers along axis `i` —
the width of their bounding box in that coordinate (0 for an empty list). -/
noncomputable def spreadAlong {n : ℕ} (centers : List (Pt n)) (i : Fin n) : ℝ :=
  match centers.map fun c => c i with
  | [] => 0
  | v :: vs => vs.foldl max v - vs.foldl min v

/-- Modelled from the spec: the split axis of balanced construction — the axis
of maximum spread among the input centers, ties broken towards the smaller
axis index. -/
noncomputable def maxSpreadAxis {n : ℕ} (centers : List (Pt n)) : Option (Fin n) :=
  (List.finRange n).foldl
    (fun best i =>
      match best with
      | none => some i
      | some j => if spreadAlong centers j < spreadAlong centers i then some i else some j)
    none

/-- The sort key of balanced construction: the center coordinate along the
chosen split axis. -/
noncomputable def splitKey {ID : Type} {n : ℕ} (l : List (ID × BoundingSphere n)) :
    ID × BoundingSphere n → ℝ :=
  match maxSpreadAxis (l.map fun p => p.2.center) with
  | some i => fun p => p.2.center i
  | none => fun _ => 0

/-- Modelled from the spec: the median partition of balanced construction —
order the collection by center coordinate along the split axis (stably) and
split it into two halves of sizes `⌈n/2⌉` and `⌊n/2⌋`. -/
noncomputable def balancedSplit {ID : Type} {n : ℕ} (l : List (ID × BoundingSphere n)) :
    List (ID × BoundingSphere n) × List (ID × BoundingSphere n) :=
  let sorted := l.mergeSort fun a b => decide (splitKey l a ≤ splitKey l b)
  (sorted.take ((l.length + 1) / 2), sorted.drop ((l.length + 1) / 2))

/-- Modelled from the spec: balanced recursive construction — zero inputs give
an empty tree, one input a single leaf; otherwise the collection is median
split along the axis of maximum spread, the two halves are built recursively,
and the new internal node carries the merge of its children's volumes. -/
noncomputable def new_balanced_node {ID : Type} {n : ℕ} :
    List (ID × BoundingSphere n) → Option (BVTNode ID (BoundingSphere n))
  | [] => none
  | [p] => some (.leaf p.1 p.2)
  | p :: q :: rest =>
    let s := balancedSplit (p :: q :: rest)
    match new_balanced_node s.1, new_balanced_node s.2 with
    | some ln, some rn => some (.node (ln.bv.merge rn.bv) ln rn)
    | _, _ => none
termination_by l => l.length
decreasing_by
all_goals
  simp [balancedSplit, List.length_take, List.length_drop, List.length_mergeSort]
all_goals
  omega

/-- `BVT::new_balanced`: build a balanced tree from the input pairs. -/
noncomputable def BVT.new_balanced {ID : Type} {n : ℕ}
    (l : List (ID × BoundingSphere n)) : BVT ID (BoundingSphere n) :=
  new_balanced_node l

/-- A point of 3-space from its three coordinates. -/
noncomputable def pt3 (x y z : ℝ) : Pt 3 :=
  ![x, y, z]

/-- The four (identifier, bounding sphere) pairs of the example
`ray_bvt3d.rs`: ball `r = 0.5` at `z = 1`, capsule `r = 0.5, h = 0.75` at
`z = 2`, cone `r = 0.5, h = 0.75` at `z = 3`, box half-extents `(1, 0.5, 1)`
at `(y, z) = (2, 4)`. -/
noncomputable def idx_and_bounding_spheres : List (ℕ × BoundingSphere 3) :=
  [(0, (Ball.mk 0.5).bounding_sphere (pt3 0 0 1)),
   (1, (Capsule.mk 0.5 0.75).bounding_sphere (pt3 0 0 2)),
   (2, (Cone.mk 0.5 0.75).bounding_sphere (pt3 0 0 3)),
   (3, (Cuboid.mk ![1, 0.5, 1]).bounding_sphere (pt3 0 2 4))]

/-- The ray of the example that hits: from the origin along `+z`. -/
noncomputable def ray_hit : Ray 3 :=
  ⟨pt3 0 0 0, pt3 0 0 1⟩

/-- The ray of the example that misses: from the origin along `-z`. -/
noncomputable def ray_miss : Ray 3 :=
  ⟨pt3 0 0 0, pt3 0 0 (-1)⟩

/-- Any point of sphere `a` also lies in `a.merge b`. -/
lemma dist_merge_left {n : ℕ} (a b : BoundingSphere n) (x : Pt n)
    (hx : dist x a.center ≤ a.radius) :
    dist x (a.merge b).center ≤ (a.merge b).radius := by
  have htri : dist x b.center ≤ dist x a.center + dist a.center b.center :=
    dist_triangle x a.center b.center
  simp only [BoundingSphere.merge]
  split_ifs with h1 h2
  · exact hx
  · exact le_trans htri (by linarith)
  · push_neg at h1 h2
    have hd0 : (0 : ℝ) ≤ dist a.center b.center := dist_nonneg
    have hdpos : 0 < dist a.center b.center := by linarith
    set d := dist a.center b.center with hdd
    set ρ := (d + a.radius + b.radius) / 2 with hρ
    have hs : 0 < (ρ - a.radius) / d := by
      apply div_pos
      · rw [hρ]; linarith
      · exact hdpos
    have hnorm :
        dist a.center (a.center + ((ρ - a.radius) / d) • (b.center - a.center)) =
          ρ - a.radius := by
      rw [dist_self_add_right, norm_smul, Real.norm_eq_abs, abs_of_pos hs,
        ← dist_eq_norm', ← hdd, div_mul_cancel₀ _ (ne_of_gt hdpos)]
    calc dist x (a.center + ((ρ - a.radius) / d) • (b.center - a.center))
        ≤ dist x a.center +
            dist a.center (a.center + ((ρ - a.radius) / d) • (b.center - a.center)) :=
          dist_triangle _ _ _
      _ ≤ a.radius + (ρ - a.radius) := by rw [hnorm]; linarith
      _ = ρ := by ring

/-- Any point of sphere `b` also lies in `a.merge b`. -/
lemma dist_merge_right {n : ℕ} (a b : BoundingSphere n) (x : Pt n)
    (hx : dist x b.center ≤ b.radius) :
    dist x (a.merge b).center ≤ (a.merge b).radius := by
  have htri : dist x a.center ≤ dist x b.center + dist b.center a.center :=
    dist_triangle x b.center a.center
  have hcomm : dist b.center a.center = dist a.center b.center := dist_comm _ _
  simp only [BoundingSphere.merge]
  split_ifs with h1 h2
  · exact le_trans htri (by linarith)
  · exact hx
  · push_neg at h1 h2
    have hd0 : (0 : ℝ) ≤ dist a.center b.center := dist_nonneg
    have hdpos : 0 < dist a.center b.center := by linarith
    set d := dist a.center b.center with hdd
    set ρ := (d + a.radius + b.radius) / 2 with hρ
    have hs1 : (ρ - a.radius) / d < 1 := by
      rw [div_lt_one hdpos, hρ]; linarith
    have hvec :
        a.center + ((ρ - a.radius) / d) • (b.center - a.center) - b.center =
          ((ρ - a.radius) / d - 1) • (b.center - a.center) := by
      rw [sub_smul, one_smul]
      abel
    have hcalc : -((ρ - a.radius) / d - 1) * d = ρ - b.radius := by
      rw [hρ]
      field_simp
      ring
    have hnorm :
        dist b.center (a.center + ((ρ - a.radius) / d) • (b.center - a.center)) =
          ρ - b.radius := by
      rw [dist_eq_norm', hvec, norm_smul, Real.norm_eq_abs,
        abs_of_neg (by linarith : (ρ - a.radius) / d - 1 < 0), ← dist_eq_norm', ← hdd,
        hcalc]
    calc dist x (a.center + ((ρ - a.radius) / d) • (b.center - a.center))
        ≤ dist x b.center +
            dist b.center (a.center + ((ρ - a.radius) / d) • (b.center - a.center)) :=
          dist_triangle _ _ _
      _ ≤ b.radius + (ρ - b.radius) := by rw [hnorm]; linarith
      _ = ρ := by ring

/-- If `a` intersects the ray then so does `a.merge b`. -/
lemma intersects_ray_merge_left {n : ℕ} {a b : BoundingSphere n} {r : Ray n}
    (h : a.intersects_ray r) : (a.merge b).intersects_ray r := by
  obtain ⟨t, ht, hd⟩ := h
  exact ⟨t, ht, dist_merge_left a b _ hd⟩

/-- If `b` intersects the ray then so does `a.merge b`. -/
lemma intersects_ray_merge_right {n : ℕ} {a b : BoundingSphere n} {r : Ray n}
    (h : b.intersects_ray r) : (a.merge b).intersects_ray r := by
  obtain ⟨t, ht, hd⟩ := h
  exact ⟨t, ht, dist_merge_right a b _ hd⟩

/-- The collector's decision is `true` exactly on volumes intersecting the ray. -/
lemma collector_eq_true_iff {n : ℕ} (ray : Ray n) (s : BoundingSphere n) :
    RayInterferencesCollector ray s = true ↔ s.intersects_ray ray := by
  simp [RayInterferencesCollector]

/-- The two halves of the median split together are a permutation of the
input collection. -/
lemma balancedSplit_perm {ID : Type} {n : ℕ} (l : List (ID × BoundingSphere n)) :
    ((balancedSplit l).1 ++ (balancedSplit l).2).Perm l := by
  simp only [balancedSplit]
  rw [List.take_append_drop]
  exact List.mergeSort_perm l _

/-- On an input of at least two pairs, both halves of the median split are
nonempty and strictly smaller than the input. -/
lemma balancedSplit_lengths {ID : Type} {n : ℕ} (l : List (ID × BoundingSphere n))
    (h : 2 ≤ l.length) :
    (balancedSplit l).1.length < l.length ∧ (balancedSplit l).2.length < l.length ∧
      (balancedSplit l).1 ≠ [] ∧ (balancedSplit l).2 ≠ [] := by
  have h1 : (balancedSplit l).1.length = min ((l.length + 1) / 2) l.length := by
    simp [balancedSplit, List.length_take, List.length_mergeSort]
  have h2 : (balancedSplit l).2.length = l.length - (l.length + 1) / 2 := by
    simp [balancedSplit, List.length_drop, List.length_mergeSort]
  refine ⟨by omega, by omega, ?_, ?_⟩
  · intro heq
    rw [heq] at h1
    simp at h1
    omega
  · intro heq
    rw [heq] at h2
    simp at h2
    omega

/-- Balanced construction succeeds on every nonempty input; its leaves are a
permutation of the input pairs and every internal node carries the merge of
its children's bounding volumes. -/
lemma new_balanced_node_spec {ID : Type} {n : ℕ} :
    ∀ (N : ℕ) (l : List (ID × BoundingSphere n)), l.length ≤ N → l ≠ [] →
      ∃ nd, new_balanced_node l = some nd ∧ nd.leaves.Perm l ∧ nd.WellMerged := by
  intro N
  induction N with
  | zero =>
    intro l hl hne
    cases l with
    | nil => exact absurd rfl hne
    | cons a t => simp at hl
  | succ N ih =>
    intro l hl hne
    match l with
    | [p] =>
      exact ⟨.leaf p.1 p.2, by rw [new_balanced_node], by simp [BVTNode.leaves], trivial⟩
    | p :: q :: rest =>
      have hlen2 : 2 ≤ (p :: q :: rest).length := by
        simp
      obtain ⟨hL1, hL2, hn1, hn2⟩ := balancedSplit_lengths (p :: q :: rest) hlen2
      have hlN : (p :: q :: rest).length ≤ N + 1 := hl
      obtain ⟨ln, hln, hlperm, hlwm⟩ :=
        ih (balancedSplit (p :: q :: rest)).1 (by omega) hn1
      obtain ⟨rn, hrn, hrperm, hrwm⟩ :=
        ih (balancedSplit (p :: q :: rest)).2 (by omega) hn2
      refine ⟨.node (ln.bv.merge rn.bv) ln rn, ?_, ?_, ?_⟩
      · rw [new_balanced_node]
        simp only [hln, hrn]
      · show (ln.leaves ++ rn.leaves).Perm (p :: q :: rest)
        exact (hlperm.append hrperm).trans (balancedSplit_perm _)
      · exact ⟨rfl, hlwm, hrwm⟩

/-- In a well-merged tree, a leaf whose bounding volume intersects the ray
forces every bounding volume on the path to the root — in particular the
root's — to intersect the ray as well. -/
lemma root_intersects_of_leaf {ID : Type} {n : ℕ} {ray : Ray n} :
    ∀ (nd : BVTNode ID (BoundingSphere n)), nd.WellMerged →
      ∀ p ∈ nd.leaves, (p.2 : BoundingSphere n).intersects_ray ray →
        nd.bv.intersects_ray ray := by
  intro nd
  induction nd with
  | leaf i b =>
    intro _ p hp hint
    simp only [BVTNode.leaves, List.mem_singleton] at hp
    rw [hp] at hint
    exact hint
  | node b lt rt ihl ihr =>
    intro hw p hp hint
    obtain ⟨hb, hlw, hrw⟩ := hw
    simp only [BVTNode.leaves, List.mem_append] at hp
    show b.intersects_ray ray
    rw [hb]
    rcases hp with hp | hp
    · exact intersects_ray_merge_left (ihl hlw p hp hint)
    · exact intersects_ray_merge_right (ihr hrw p hp hint)

/-- Soundness of pruning: on a well-merged tree, the collector traversal
computes exactly the brute-force scan over the tree's leaves. -/
lemma visit_eq_leaf_scan {ID : Type} {n : ℕ} (ray : Ray n) :
    ∀ (nd : BVTNode ID (BoundingSphere n)), nd.WellMerged →
      nd.visit (RayInterferencesCollector ray) =
        (nd.leaves.filter fun p => RayInterferencesCollector ray p.2).map Prod.fst := by
  intro nd
  induction nd with
  | leaf i b =>
    intro _
    by_cases hb : RayInterferencesCollector ray b = true
    · simp [BVTNode.visit, BVTNode.leaves, hb]
    · rw [Bool.not_eq_true] at hb
      simp [BVTNode.visit, BVTNode.leaves, hb]
  | node b lt rt ihl ihr =>
    intro hw
    obtain ⟨hb, hlw, hrw⟩ := hw
    by_cases ht : RayInterferencesCollector ray b = true
    · simp [BVTNode.visit, BVTNode.leaves, ht, List.filter_append, ihl hlw, ihr hrw]
    · have hall :
          ∀ p ∈ (BVTNode.node b lt rt).leaves,
            ¬ (RayInterferencesCollector ray p.2 = true) := by
        intro p hp hcol
        apply ht
        rw [collector_eq_true_iff]
        have hint : p.2.intersects_ray ray := (collector_eq_true_iff ray p.2).mp hcol
        exact root_intersects_of_leaf (BVTNode.node b lt rt) ⟨hb, hlw, hrw⟩ p hp hint
      rw [Bool.not_eq_true] at ht
      simp only [BVTNode.visit, ht, Bool.false_eq_true, if_false]
      rw [List.filter_eq_nil_iff.mpr hall]
      rfl

/-- The collector traversal on the balanced tree of any input list: it equals
the scan of the tree's leaves, those leaves are a permutation of the input,
and hence the output is a permutation of the brute-force filter of the input. -/
lemma new_balanced_visit_spec {ID : Type} {n : ℕ}
    (l : List (ID × BoundingSphere n)) (ray : Ray n) :
    BVT.visit (RayInterferencesCollector ray) (BVT.new_balanced l) =
      ((BVT.leavesList (BVT.new_balanced l)).filter
        fun p => RayInterferencesCollector ray p.2).map Prod.fst ∧
    (BVT.leavesList (BVT.new_balanced l)).Perm l := by
  by_cases hne : l = []
  · subst hne
    have hnil : BVT.new_balanced ([] : List (ID × BoundingSphere n)) = none := by
      rw [BVT.new_balanced, new_balanced_node]
    rw [hnil]
    exact ⟨rfl, List.Perm.refl _⟩
  · obtain ⟨nd, hnd, hperm, hwm⟩ := new_balanced_node_spec l.length l (le_refl _) hne
    have hbvt : BVT.new_balanced l = some nd := hnd
    rw [hbvt]
    exact ⟨visit_eq_leaf_scan ray nd hwm, hperm⟩

/-- The collector output on the balanced tree is a permutation of the
brute-force filter of the input pairs. -/
lemma new_balanced_visit_perm {ID : Type} {n : ℕ}
    (l : List (ID × BoundingSphere n)) (ray : Ray n) :
    (BVT.visit (RayInterferencesCollector ray) (BVT.new_balanced l)).Perm
      ((l.filter fun p => RayInterferencesCollector ray p.2).map Prod.fst) := by
  obtain ⟨heq, hperm⟩ := new_balanced_visit_spec l ray
  rw [heq]
  exact ((hperm.filter _).map _)

/-- C8: the merged sphere's ray test is monotone over its inputs — whenever
`a` or `b` intersects a ray, so does `merge a b`. -/
theorem merge_intersects_ray_monotone {n : ℕ} (a b : BoundingSphere n) (r : Ray n)
    (h : a.intersects_ray r ∨ b.intersects_ray r) :
    (a.merge b).intersects_ray r :=
  h.elim intersects_ray_merge_left intersects_ray_merge_right

/-- Witness for C8 at concrete spheres and ray: the unit sphere at the origin
intersects the `+z` ray from the origin, hence so does its merge with any
other sphere (here the radius-2 sphere at the origin). -/
theorem merge_intersects_ray_monotone_witness :
    (BoundingSphere.merge ⟨pt3 0 0 0, 1⟩ ⟨pt3 0 0 0, 2⟩).intersects_ray ray_hit := by
  apply merge_intersects_ray_monotone
  left
  refine ⟨0, le_refl 0, ?_⟩
  rw [zero_smul, add_zero]
  show dist (pt3 0 0 0) (pt3 0 0 0) ≤ 1
  rw [dist_self]
  norm_num

/-- C2: for every input collection and ray, the pruning traversal of the
balanced tree equals the brute-force scan of the tree's leaves, the leaves
are exactly the input pairs (as a permutation), and therefore the collector
output is a permutation of the identifiers whose input bounding volume
intersects the ray — pruning drops no true match and adds no false one. -/
theorem bvt_ray_query_eq_bruteforce (ID : Type) (n : ℕ)
    (l : List (ID × BoundingSphere n)) (ray : Ray n) :
    BVT.visit (RayInterferencesCollector ray) (BVT.new_balanced l) =
      ((BVT.leavesList (BVT.new_balanced l)).filter
        fun p => RayInterferencesCollector ray p.2).map Prod.fst ∧
    (BVT.leavesList (BVT.new_balanced l)).Perm l ∧
    (BVT.visit (RayInterferencesCollector ray) (BVT.new_balanced l)).Perm
      ((l.filter fun p => RayInterferencesCollector ray p.2).map Prod.fst) := by
  obtain ⟨h1, h2⟩ := new_balanced_visit_spec l ray
  exact ⟨h1, h2, new_balanced_visit_perm l ray⟩

/-- Distance in 3-space, written out in coordinates. -/
lemma dist3_eq (x y : Pt 3) :
    dist x y = Real.sqrt ((x 0 - y 0) ^ 2 + (x 1 - y 1) ^ 2 + (x 2 - y 2) ^ 2) := by
  rw [EuclideanSpace.dist_eq, Fin.sum_univ_three]
  simp [Real.dist_eq, sq_abs]

/-- A ray misses a sphere when some `B` exceeding the radius bounds the
distance of every forward ray point from the center from below. -/
lemma miss_of_sq_bound (s : BoundingSphere 3) (ray : Ray 3) (B : ℝ) (hB : 0 ≤ B)
    (hr : s.radius < B)
    (h : ∀ t : ℝ, 0 ≤ t →
      B ^ 2 ≤ ((ray.origin + t • ray.dir) 0 - s.center 0) ^ 2 +
          ((ray.origin + t • ray.dir) 1 - s.center 1) ^ 2 +
          ((ray.origin + t • ray.dir) 2 - s.center 2) ^ 2) :
    ¬ s.intersects_ray ray := by
  rintro ⟨t, ht, hd⟩
  rw [dist3_eq] at hd
  have hnn : (0 : ℝ) ≤
      ((ray.origin + t • ray.dir) 0 - s.center 0) ^ 2 +
        ((ray.origin + t • ray.dir) 1 - s.center 1) ^ 2 +
        ((ray.origin + t • ray.dir) 2 - s.center 2) ^ 2 := by positivity
  have h2 : B ≤ Real.sqrt
      (((ray.origin + t • ray.dir) 0 - s.center 0) ^ 2 +
        ((ray.origin + t • ray.dir) 1 - s.center 1) ^ 2 +
        ((ray.origin + t • ray.dir) 2 - s.center 2) ^ 2) :=
    (Real.le_sqrt hB hnn).mpr (h t ht)
  linarith

/-- The ball's bounding sphere (center `z = 1`, radius `0.5`) intersects the
`+z` ray. -/
lemma example_hit_ball : ((Ball.mk 0.5).bounding_sphere (pt3 0 0 1)).intersects_ray ray_hit := by
  refine ⟨1, by norm_num, ?_⟩
  have hpt : ray_hit.origin + (1 : ℝ) • ray_hit.dir = pt3 0 0 1 := by
    funext i
    fin_cases i <;> simp [ray_hit, pt3]
  rw [hpt]
  show dist (pt3 0 0 1) (pt3 0 0 1) ≤ 0.5
  rw [dist_self]
  norm_num

/-- The capsule's bounding sphere (center `z = 2`, radius `1.25`) intersects
the `+z` ray. -/
lemma example_hit_capsule :
    ((Capsule.mk 0.5 0.75).bounding_sphere (pt3 0 0 2)).intersects_ray ray_hit := by
  refine ⟨2, by norm_num, ?_⟩
  have hpt : ray_hit.origin + (2 : ℝ) • ray_hit.dir = pt3 0 0 2 := by
    funext i
    fin_cases i <;> simp [ray_hit, pt3]
  rw [hpt]
  show dist (pt3 0 0 2) (pt3 0 0 2) ≤ 0.5 + 0.75
  rw [dist_self]
  norm_num

/-- The cone's bounding sphere (center `z = 3`) intersects the `+z` ray. -/
lemma example_hit_cone :
    ((Cone.mk 0.5 0.75).bounding_sphere (pt3 0 0 3)).intersects_ray ray_hit := by
  refine ⟨3, by norm_num, ?_⟩
  have hpt : ray_hit.origin + (3 : ℝ) • ray_hit.dir = pt3 0 0 3 := by
    funext i
    fin_cases i <;> simp [ray_hit, pt3]
  rw [hpt]
  show dist (pt3 0 0 3) (pt3 0 0 3) ≤ Real.sqrt ((0.5 : ℝ) ^ 2 + (0.75 : ℝ) ^ 2)
  rw [dist_self]
  positivity

/-- The box's bounding sphere (center `(0, 2, 4)`, radius `√2.25 = 1.5`) does
not intersect the `+z` ray: every forward ray point stays at distance at
least 2 from the center. -/
lemma example_miss_cuboid_hit_ray :
    ¬ ((Cuboid.mk ![1, 0.5, 1]).bounding_sphere (pt3 0 2 4)).intersects_ray ray_hit := by
  apply miss_of_sq_bound _ _ 2 (by norm_num)
  · show Real.sqrt (((![1, 0.5, 1] : Fin 3 → ℝ) 0) ^ 2 + ((![1, 0.5, 1] : Fin 3 → ℝ) 1) ^ 2 +
      ((![1, 0.5, 1] : Fin 3 → ℝ) 2) ^ 2) < 2
    have harg : ((![1, 0.5, 1] : Fin 3 → ℝ) 0) ^ 2 + ((![1, 0.5, 1] : Fin 3 → ℝ) 1) ^ 2 +
        ((![1, 0.5, 1] : Fin 3 → ℝ) 2) ^ 2 = 2.25 := by
      norm_num
    rw [harg]
    exact (Real.sqrt_lt' (by norm_num)).mpr (by norm_num)
  · intro t ht
    simp only [ray_hit, pt3, Cuboid.bounding_sphere, PiLp.add_apply, PiLp.smul_apply,
      smul_eq_mul, Matrix.cons_val_zero, Matrix.cons_val_one, Matrix.head_cons,
      Matrix.cons_val_two, Matrix.tail_cons]
    nlinarith [sq_nonneg (t - 4)]

/-- The ball's bounding sphere does not intersect the `-z` ray. -/
lemma example_miss_ball :
    ¬ ((Ball.mk 0.5).bounding_sphere (pt3 0 0 1)).intersects_ray ray_miss := by
  apply miss_of_sq_bound _ _ 1 (by norm_num)
  · show (0.5 : ℝ) < 1
    norm_num
  · intro t ht
    simp only [ray_miss, pt3, Ball.bounding_sphere, PiLp.add_apply, PiLp.smul_apply,
      smul_eq_mul, Matrix.cons_val_zero, Matrix.cons_val_one, Matrix.head_cons,
      Matrix.cons_val_two, Matrix.tail_cons]
    nlinarith [sq_nonneg t]

/-- The capsule's bounding sphere does not intersect the `-z` ray. -/
lemma example_miss_capsule :
    ¬ ((Capsule.mk 0.5 0.75).bounding_sphere (pt3 0 0 2)).intersects_ray ray_miss := by
  apply miss_of_sq_bound _ _ 2 (by norm_num)
  · show (0.5 : ℝ) + 0.75 < 2
    norm_num
  · intro t ht
    simp only [ray_miss, pt3, Capsule.bounding_sphere, PiLp.add_apply, PiLp.smul_apply,
      smul_eq_mul, Matrix.cons_val_zero, Matrix.cons_val_one, Matrix.head_cons,
      Matrix.cons_val_two, Matrix.tail_cons]
    nlinarith [sq_nonneg t]

/-- The cone's bounding sphere does not intersect the `-z` ray. -/
lemma example_miss_cone :
    ¬ ((Cone.mk 0.5 0.75).bounding_sphere (pt3 0 0 3)).intersects_ray ray_miss := by
  apply miss_of_sq_bound _ _ 3 (by norm_num)
  · show Real.sqrt ((0.5 : ℝ) ^ 2 + (0.75 : ℝ) ^ 2) < 3
    exact (Real.sqrt_lt' (by norm_num)).mpr (by norm_num)
  · intro t ht
    simp only [ray_miss, pt3, Cone.bounding_sphere, PiLp.add_apply, PiLp.smul_apply,
      smul_eq_mul, Matrix.cons_val_zero, Matrix.cons_val_one, Matrix.head_cons,
      Matrix.cons_val_two, Matrix.tail_cons]
    nlinarith [sq_nonneg t]

/-- The box's bounding sphere does not intersect the `-z` ray. -/
lemma example_miss_cuboid :
    ¬ ((Cuboid.mk ![1, 0.5, 1]).bounding_sphere (pt3 0 2 4)).intersects_ray ray_miss := by
  apply miss_of_sq_bound _ _ 2 (by norm_num)
  · show Real.sqrt (((![1, 0.5, 1] : Fin 3 → ℝ) 0) ^ 2 + ((![1, 0.5, 1] : Fin 3 → ℝ) 1) ^ 2 +
      ((![1, 0.5, 1] : Fin 3 → ℝ) 2) ^ 2) < 2
    have harg : ((![1, 0.5, 1] : Fin 3 → ℝ) 0) ^ 2 + ((![1, 0.5, 1] : Fin 3 → ℝ) 1) ^ 2 +
        ((![1, 0.5, 1] : Fin 3 → ℝ) 2) ^ 2 = 2.25 := by
      norm_num
    rw [harg]
    exact (Real.sqrt_lt' (by norm_num)).mpr (by norm_num)
  · intro t ht
    simp only [ray_miss, pt3, Cuboid.bounding_sphere, PiLp.add_apply, PiLp.smul_apply,
      smul_eq_mul, Matrix.cons_val_zero, Matrix.cons_val_one, Matrix.head_cons,
      Matrix.cons_val_two, Matrix.tail_cons]
    nlinarith [sq_nonneg (t + 4)]

/-- C1: in the end-to-end scenario of `ray_bvt3d.rs` — four shapes placed at
`z = 1, 2, 3` and `(y, z) = (2, 4)`, indexed in a balanced BVT — the
ray-interference collector reports exactly 3 matches for the `+z` ray from
the origin and exactly 0 matches for the `-z` ray. -/
theorem example_ray_bvt3d_counts :
    (BVT.visit (RayInterferencesCollector ray_hit)
      (BVT.new_balanced idx_and_bounding_spheres)).length = 3 ∧
    (BVT.visit (RayInterferencesCollector ray_miss)
      (BVT.new_balanced idx_and_bounding_spheres)).length = 0 := by
  have c0 := (collector_eq_true_iff ray_hit _).mpr example_hit_ball
  have c1 := (collector_eq_true_iff ray_hit _).mpr example_hit_capsule
  have c2 := (collector_eq_true_iff ray_hit _).mpr example_hit_cone
  have c3 : RayInterferencesCollector ray_hit
      ((Cuboid.mk ![1, 0.5, 1]).bounding_sphere (pt3 0 2 4)) = false := by
    rw [← Bool.not_eq_true, collector_eq_true_iff]
    exact example_miss_cuboid_hit_ray
  have m0 : RayInterferencesCollector ray_miss
      ((Ball.mk 0.5).bounding_sphere (pt3 0 0 1)) = false := by
    rw [← Bool.not_eq_true, collector_eq_true_iff]
    exact example_miss_ball
  have m1 : RayInterferencesCollector ray_miss
      ((Capsule.mk 0.5 0.75).bounding_sphere (pt3 0 0 2)) = false := by
    rw [← Bool.not_eq_true, collector_eq_true_iff]
    exact example_miss_capsule
  have m2 : RayInterferencesCollector ray_miss
      ((Cone.mk 0.5 0.75).bounding_sphere (pt3 0 0 3)) = false := by
    rw [← Bool.not_eq_true, collector_eq_true_iff]
    exact example_miss_cone
  have m3 : RayInterferencesCollector ray_miss
      ((Cuboid.mk ![1, 0.5, 1]).bounding_sphere (pt3 0 2 4)) = false := by
    rw [← Bool.not_eq_true, collector_eq_true_iff]
    exact example_miss_cuboid
  constructor
  · rw [(new_balanced_visit_perm idx_and_bounding_spheres ray_hit).length_eq,
      List.length_map]
    simp [idx_and_bounding_spheres, List.filter_cons, c0, c1, c2, c3]
  · rw [(new_balanced_visit_perm idx_and_bounding_spheres ray_miss).length_eq,
      List.length_map]
    simp [idx_and_bounding_spheres, List.filter_cons, m0, m1, m2, m3]

/-- C3: at the unsupported dimension 4, the cone volume and mass-properties
functions fail (return `none`, the model of `fail!`) on every input; they
never produce a value. -/
theorem cone_dim4_fails_fast (half_height radius : ℝ) (c : Cone) (density : ℝ) :
    cone_volume_dim4 half_height radius = none ∧
    mass_properties_dim4 c density = none := by
  exact ⟨rfl, rfl⟩

/-- C4: in 3D the cone volume is `radius² · π · half_height · (2/3)` and the
mass returned by `mass_properties` is that volume times the density. -/
theorem cone_dim3_volume_and_mass (half_height radius density : ℝ) :
    cone_volume_dim3 half_height radius =
      radius ^ 2 * Real.pi * half_height * (2 / 3) ∧
    (mass_properties_dim3 ⟨half_height, radius⟩ density).1 =
      cone_volume_dim3 half_height radius * density := by
  constructor
  · unfold cone_volume_dim3
    ring
  · rfl

/-- C5: the 3D cone inertia tensor is the diagonal matrix with off-axis
moments `m·r²·(3/20) + m·(2h)²·(3/5)` at entries `(0,0)` and `(2,2)` and the
axial moment `m·r²·(3/10)` at entry `(1,1)`, where `m` is the returned mass;
all off-diagonal entries are zero. -/
theorem cone_dim3_inertia (half_height radius density : ℝ) :
    (mass_properties_dim3 ⟨half_height, radius⟩ density).2.2 =
      Matrix.diagonal
        ![(mass_properties_dim3 ⟨half_height, radius⟩ density).1 * radius ^ 2 * (3 / 20) +
            (mass_properties_dim3 ⟨half_height, radius⟩ density).1 * (2 * half_height) ^ 2 * (3 / 5),
          (mass_properties_dim3 ⟨half_height, radius⟩ density).1 * radius ^ 2 * (3 / 10),
          (mass_properties_dim3 ⟨half_height, radius⟩ density).1 * radius ^ 2 * (3 / 20) +
            (mass_properties_dim3 ⟨half_height, radius⟩ density).1 * (2 * half_height) ^ 2 * (3 / 5)] := by
  ext i j
  fin_cases i <;> fin_cases j <;>
    simp [mass_properties_dim3, setEntry, Matrix.diagonal] <;> ring

/-- C6: in 2D the cone volume is `radius · half_height · 2` (the area of the
isosceles-triangle cross-section), the mass is that volume times the density,
and the (1×1) inertia holds `radius · half_height³ / 3` at its only entry
`(0,0)`. -/
theorem cone_dim2_volume_mass_inertia (half_height radius density : ℝ) :
    cone_volume_dim2 half_height radius = radius * half_height * 2 ∧
    (mass_properties_dim2 ⟨half_height, radius⟩ density).1 =
      cone_volume_dim2 half_height radius * density ∧
    (mass_properties_dim2 ⟨half_height, radius⟩ density).2.2 =
      Matrix.of ![![radius * half_height ^ 3 / 3]] := by
  refine ⟨rfl, rfl, ?_⟩
  ext i j
  fin_cases i <;> fin_cases j <;>
    simp [mass_properties_dim2, setEntry] <;> ring

/-- C7: in both the 2D and the 3D variant, the center offset returned by the
cone's `mass_properties` is `-half_height / 2` along the axis of symmetry
(coordinate 1) and zero on every other coordinate. -/
theorem cone_center_offset (half_height radius density : ℝ) :
    (mass_properties_dim2 ⟨half_height, radius⟩ density).2.1 =
      ![0, -half_height / 2] ∧
    (mass_properties_dim3 ⟨half_height, radius⟩ density).2.1 =
      ![0, -half_height / 2, 0] := by
  constructor <;>
  · funext i
    fin_cases i <;> simp [mass_properties_dim2, mass_properties_dim3, Function.update]

/-- C9 counterexample: a negative radius with positive half height and
density yields a strictly *positive* 3D mass (the radius enters the volume
squared), contradicting the claim that a negative radius yields a negative
mass. -/
theorem cone_dim3_negative_radius_positive_mass :
    0 < (mass_properties_dim3 ⟨1, -1⟩ 1).1 := by
  have hπ := Real.pi_pos
  show 0 < cone_volume_dim3 1 (-1) * 1
  unfold cone_volume_dim3
  nlinarith

/-- C9 amended: both `mass_properties` variants are total and return the mass
formula unconditionally; a negative half height or density (the other inputs
positive) yields a negative mass in both 2D and 3D, while a negative radius
yields a negative mass in 2D but a positive one in 3D, where the radius is
squared. -/
theorem cone_mass_total_and_signs (half_height radius density : ℝ) :
    (mass_properties_dim2 ⟨half_height, radius⟩ density).1 =
      radius * half_height * 2 * density ∧
    (mass_properties_dim3 ⟨half_height, radius⟩ density).1 =
      radius * radius * Real.pi * half_height * (2 / 3) * density ∧
    (half_height < 0 → 0 < radius → 0 < density →
      (mass_properties_dim2 ⟨half_height, radius⟩ density).1 < 0 ∧
      (mass_properties_dim3 ⟨half_height, radius⟩ density).1 < 0) ∧
    (density < 0 → 0 < radius → 0 < half_height →
      (mass_properties_dim2 ⟨half_height, radius⟩ density).1 < 0 ∧
      (mass_properties_dim3 ⟨half_height, radius⟩ density).1 < 0) ∧
    (radius < 0 → 0 < half_height → 0 < density →
      (mass_properties_dim2 ⟨half_height, radius⟩ density).1 < 0 ∧
      0 < (mass_properties_dim3 ⟨half_height, radius⟩ density).1) := by
  have hπ := Real.pi_pos
  have h2 : (mass_properties_dim2 ⟨half_height, radius⟩ density).1 =
      radius * half_height * 2 * density := rfl
  have h3 : (mass_properties_dim3 ⟨half_height, radius⟩ density).1 =
      radius * radius * Real.pi * half_height * (2 / 3) * density := rfl
  refine ⟨h2, h3, ?_, ?_, ?_⟩ <;> intro ha hb hc <;> rw [h2, h3] <;> constructor
  · nlinarith [mul_neg_of_neg_of_pos ha (mul_pos hb hc)]
  · nlinarith [mul_neg_of_neg_of_pos ha (mul_pos (mul_pos (mul_pos hb hb) hπ) hc)]
  · nlinarith [mul_neg_of_neg_of_pos ha (mul_pos hb hc)]
  · nlinarith [mul_neg_of_neg_of_pos ha (mul_pos (mul_pos (mul_pos hb hb) hπ) hc)]
  · nlinarith [mul_neg_of_neg_of_pos ha (mul_pos hb hc)]
  · nlinarith [mul_pos (mul_pos (mul_pos (mul_pos_of_neg_of_neg ha ha) hπ) hb) hc]

/-- Witness for the amended C9: concrete sign evaluations, one per scenario. -/
theorem cone_mass_total_and_signs_witness :
    ((mass_properties_dim2 ⟨-1, 1⟩ 1).1 < 0 ∧ (mass_properties_dim3 ⟨-1, 1⟩ 1).1 < 0) ∧
    ((mass_properties_dim2 ⟨1, 1⟩ (-1)).1 < 0 ∧ (mass_properties_dim3 ⟨1, 1⟩ (-1)).1 < 0) ∧
    ((mass_properties_dim2 ⟨1, -1⟩ 1).1 < 0 ∧ 0 < (mass_properties_dim3 ⟨1, -1⟩ 1).1) := by
  have w1 := (cone_mass_total_and_signs (-1) 1 1).2.2.1
  have w2 := (cone_mass_total_and_signs 1 1 (-1)).2.2.2.1
  have w3 := (cone_mass_total_and_signs 1 (-1) 1).2.2.2.2
  exact ⟨w1 (by norm_num) (by norm_num) (by norm_num),
         w2 (by norm_num) (by norm_num) (by norm_num),
         w3 (by norm_num) (by norm_num) (by norm_num)⟩

/-- C10: the 2D cone inertia does not depend on the density at all, while the
3D inertia scales linearly with the density (through the mass). -/
theorem cone_inertia_density_dependence (c : Cone) (d1 d2 : ℝ) :
    (mass_properties_dim2 c d1).2.2 = (mass_properties_dim2 c d2).2.2 ∧
    (mass_properties_dim3 c d1).2.2 = d1 • (mass_properties_dim3 c 1).2.2 := by
  constructor
  · rfl
  · ext i j
    fin_cases i <;> fin_cases j <;>
      simp [mass_properties_dim3, setEntry, cone_volume_dim3] <;> ring

end Ncollide
